import Mathlib

/-!
Verification of the vector3 library: a shallow embedding of the three
backends (scalar vector3_reg, single-precision SIMD vector3f_simd,
double-precision SIMD vector3d_simd) together with theorems settling the
stated properties of the library.

Floating-point element values are modelled exactly: a value is either a
finite rational, plus or minus infinity, or NaN.  Arithmetic follows the
IEEE special-value rules (0/0 = NaN, nonzero/0 = signed infinity, NaN
propagates), with finite arithmetic kept exact (no rounding, no signed
zero).  Square roots and reciprocal square roots, whose exact values the
claims never depend on, are abstract function parameters.
-/

/-- Element value of a backend: finite rational, signed infinity, or NaN. -/
inductive FP where
  | num : ℚ → FP
  | pinf : FP
  | ninf : FP
  | nan : FP
deriving DecidableEq

/-- IEEE-style negation. -/
def fpNeg : FP → FP
  | FP.num a => FP.num (-a)
  | FP.pinf => FP.ninf
  | FP.ninf => FP.pinf
  | FP.nan => FP.nan

/-- IEEE-style addition on modelled element values. -/
def fpAdd : FP → FP → FP
  | FP.nan, _ => FP.nan
  | _, FP.nan => FP.nan
  | FP.num a, FP.num b => FP.num (a + b)
  | FP.num _, FP.pinf => FP.pinf
  | FP.pinf, FP.num _ => FP.pinf
  | FP.num _, FP.ninf => FP.ninf
  | FP.ninf, FP.num _ => FP.ninf
  | FP.pinf, FP.pinf => FP.pinf
  | FP.ninf, FP.ninf => FP.ninf
  | FP.pinf, FP.ninf => FP.nan
  | FP.ninf, FP.pinf => FP.nan

/-- IEEE-style subtraction. -/
def fpSub (a b : FP) : FP := fpAdd a (fpNeg b)

/-- IEEE-style multiplication. -/
def fpMul : FP → FP → FP
  | FP.nan, _ => FP.nan
  | _, FP.nan => FP.nan
  | FP.num a, FP.num b => FP.num (a * b)
  | FP.num a, FP.pinf =>
      if a = 0 then FP.nan else if 0 < a then FP.pinf else FP.ninf
  | FP.num a, FP.ninf =>
      if a = 0 then FP.nan else if 0 < a then FP.ninf else FP.pinf
  | FP.pinf, FP.num b =>
      if b = 0 then FP.nan else if 0 < b then FP.pinf else FP.ninf
  | FP.ninf, FP.num b =>
      if b = 0 then FP.nan else if 0 < b then FP.ninf else FP.pinf
  | FP.pinf, FP.pinf => FP.pinf
  | FP.pinf, FP.ninf => FP.ninf
  | FP.ninf, FP.pinf => FP.ninf
  | FP.ninf, FP.ninf => FP.pinf

/-- IEEE-style division: 0/0 = NaN, nonzero/0 = signed infinity,
finite/infinite = 0, infinite/infinite = NaN. -/
def fpDiv : FP → FP → FP
  | FP.nan, _ => FP.nan
  | _, FP.nan => FP.nan
  | FP.num a, FP.num b =>
      if b = 0 then
        (if a = 0 then FP.nan else if 0 < a then FP.pinf else FP.ninf)
      else FP.num (a / b)
  | FP.num _, FP.pinf => FP.num 0
  | FP.num _, FP.ninf => FP.num 0
  | FP.pinf, FP.num b => if 0 ≤ b then FP.pinf else FP.ninf
  | FP.ninf, FP.num b => if 0 ≤ b then FP.ninf else FP.pinf
  | FP.pinf, FP.pinf => FP.nan
  | FP.pinf, FP.ninf => FP.nan
  | FP.ninf, FP.pinf => FP.nan
  | FP.ninf, FP.ninf => FP.nan

/-- The 128-bit four-lane register (the type __m128), lane 0 lowest. -/
structure M128 where
  e0 : FP
  e1 : FP
  e2 : FP
  e3 : FP
deriving DecidableEq

/-- A 128-bit two-lane double register (the type __m128d). -/
structure M128d where
  e0 : FP
  e1 : FP
deriving DecidableEq

/-- The 256-bit four-lane double register (the type __m256d), lane 0 lowest. -/
structure M256d where
  e0 : FP
  e1 : FP
  e2 : FP
  e3 : FP
deriving DecidableEq

/-- Lane selector for a four-lane single register. -/
def M128.get (r : M128) (i : Nat) : FP :=
  match i with
  | 0 => r.e0
  | 1 => r.e1
  | 2 => r.e2
  | _ => r.e3

/-- Lane selector for a four-lane double register. -/
def M256d.get (r : M256d) (i : Nat) : FP :=
  match i with
  | 0 => r.e0
  | 1 => r.e1
  | 2 => r.e2
  | _ => r.e3

/-- The intrinsic _mm_setzero_ps. -/
def mm_setzero_ps : M128 := ⟨FP.num 0, FP.num 0, FP.num 0, FP.num 0⟩

/-- The intrinsic _mm_set_ps: arguments from highest lane to lowest. -/
def mm_set_ps (a3 a2 a1 a0 : FP) : M128 := ⟨a0, a1, a2, a3⟩

/-- The intrinsic _mm_set1_ps: broadcast one value to all four lanes. -/
def mm_set1_ps (a : FP) : M128 := ⟨a, a, a, a⟩

/-- The intrinsic _mm_add_ps: lanewise addition. -/
def mm_add_ps (a b : M128) : M128 :=
  ⟨fpAdd a.e0 b.e0, fpAdd a.e1 b.e1, fpAdd a.e2 b.e2, fpAdd a.e3 b.e3⟩

/-- The intrinsic _mm_sub_ps: lanewise subtraction. -/
def mm_sub_ps (a b : M128) : M128 :=
  ⟨fpSub a.e0 b.e0, fpSub a.e1 b.e1, fpSub a.e2 b.e2, fpSub a.e3 b.e3⟩

/-- The intrinsic _mm_mul_ps: lanewise multiplication. -/
def mm_mul_ps (a b : M128) : M128 :=
  ⟨fpMul a.e0 b.e0, fpMul a.e1 b.e1, fpMul a.e2 b.e2, fpMul a.e3 b.e3⟩

/-- The intrinsic _mm_div_ps: lanewise division. -/
def mm_div_ps (a b : M128) : M128 :=
  ⟨fpDiv a.e0 b.e0, fpDiv a.e1 b.e1, fpDiv a.e2 b.e2, fpDiv a.e3 b.e3⟩

/-- The intrinsic _mm_shuffle_ps with control _MM_SHUFFLE(s3, s2, s1, s0):
the two low result lanes select from the first operand, the two high result
lanes from the second. -/
def mm_shuffle_ps (a b : M128) (s3 s2 s1 s0 : Nat) : M128 :=
  ⟨a.get s0, a.get s1, b.get s2, b.get s3⟩

/-- The intrinsic _mm_dp_ps: conditional products per the high four mask
bits of the immediate, horizontally summed, broadcast per its low four
bits. -/
def mm_dp_ps (a b : M128) (imm : Nat) : M128 :=
  let t0 := if Nat.testBit imm 4 then fpMul a.e0 b.e0 else FP.num 0
  let t1 := if Nat.testBit imm 5 then fpMul a.e1 b.e1 else FP.num 0
  let t2 := if Nat.testBit imm 6 then fpMul a.e2 b.e2 else FP.num 0
  let t3 := if Nat.testBit imm 7 then fpMul a.e3 b.e3 else FP.num 0
  let s := fpAdd (fpAdd t0 t1) (fpAdd t2 t3)
  ⟨if Nat.testBit imm 0 then s else FP.num 0,
   if Nat.testBit imm 1 then s else FP.num 0,
   if Nat.testBit imm 2 then s else FP.num 0,
   if Nat.testBit imm 3 then s else FP.num 0⟩

/-- The intrinsic _mm_cvtss_f32: extract lane 0. -/
def mm_cvtss_f32 (a : M128) : FP := a.e0

/-- The intrinsic _mm_sqrt_ss for an abstract square root s: apply s to
lane 0, pass the other lanes through. -/
def mm_sqrt_ss (s : FP → FP) (a : M128) : M128 := ⟨s a.e0, a.e1, a.e2, a.e3⟩

/-- The intrinsic _mm_rsqrt_ss for an abstract reciprocal square root rs:
apply rs to lane 0, pass the other lanes through. -/
def mm_rsqrt_ss (rs : FP → FP) (a : M128) : M128 := ⟨rs a.e0, a.e1, a.e2, a.e3⟩

/-- The intrinsic _mm_rsqrt_ps for an abstract reciprocal square root rs:
apply rs to every lane. -/
def mm_rsqrt_ps (rs : FP → FP) (a : M128) : M128 :=
  ⟨rs a.e0, rs a.e1, rs a.e2, rs a.e3⟩

/-- The intrinsic _mm256_setzero_pd. -/
def mm256_setzero_pd : M256d := ⟨FP.num 0, FP.num 0, FP.num 0, FP.num 0⟩

/-- The intrinsic _mm256_set_pd: arguments from highest lane to lowest. -/
def mm256_set_pd (a3 a2 a1 a0 : FP) : M256d := ⟨a0, a1, a2, a3⟩

/-- The intrinsic _mm256_set1_pd: broadcast one value to all four lanes. -/
def mm256_set1_pd (a : FP) : M256d := ⟨a, a, a, a⟩

/-- The intrinsic _mm256_add_pd: lanewise addition. -/
def mm256_add_pd (a b : M256d) : M256d :=
  ⟨fpAdd a.e0 b.e0, fpAdd a.e1 b.e1, fpAdd a.e2 b.e2, fpAdd a.e3 b.e3⟩

/-- The intrinsic _mm256_sub_pd: lanewise subtraction. -/
def mm256_sub_pd (a b : M256d) : M256d :=
  ⟨fpSub a.e0 b.e0, fpSub a.e1 b.e1, fpSub a.e2 b.e2, fpSub a.e3 b.e3⟩

/-- The intrinsic _mm256_mul_pd: lanewise multiplication. -/
def mm256_mul_pd (a b : M256d) : M256d :=
  ⟨fpMul a.e0 b.e0, fpMul a.e1 b.e1, fpMul a.e2 b.e2, fpMul a.e3 b.e3⟩

/-- The intrinsic _mm256_div_pd: lanewise division. -/
def mm256_div_pd (a b : M256d) : M256d :=
  ⟨fpDiv a.e0 b.e0, fpDiv a.e1 b.e1, fpDiv a.e2 b.e2, fpDiv a.e3 b.e3⟩

/-- The intrinsic _mm256_permute4x64_pd with control
_MM_SHUFFLE(s3, s2, s1, s0). -/
def mm256_permute4x64_pd (a : M256d) (s3 s2 s1 s0 : Nat) : M256d :=
  ⟨a.get s0, a.get s1, a.get s2, a.get s3⟩

/-- The intrinsic _mm256_hadd_pd: pairwise horizontal adds within each
128-bit half. -/
def mm256_hadd_pd (a b : M256d) : M256d :=
  ⟨fpAdd a.e1 a.e0, fpAdd b.e1 b.e0, fpAdd a.e3 a.e2, fpAdd b.e3 b.e2⟩

/-- The intrinsic _mm256_extractf128_pd: extract the high (index 1) or low
(index 0) 128-bit half. -/
def mm256_extractf128_pd (a : M256d) (i : Nat) : M128d :=
  if i = 1 then ⟨a.e2, a.e3⟩ else ⟨a.e0, a.e1⟩

/-- The intrinsic _mm256_castpd256_pd128: the low 128-bit half. -/
def mm256_castpd256_pd128 (a : M256d) : M128d := ⟨a.e0, a.e1⟩

/-- The intrinsic _mm_add_pd: lanewise addition of two-lane registers. -/
def mm_add_pd (a b : M128d) : M128d := ⟨fpAdd a.e0 b.e0, fpAdd a.e1 b.e1⟩

/-- The intrinsic _mm_sqrt_pd for an abstract square root s. -/
def mm_sqrt_pd (s : FP → FP) (a : M128d) : M128d := ⟨s a.e0, s a.e1⟩

/-- The intrinsic _mm_cvtsd_f64: extract lane 0. -/
def mm_cvtsd_f64 (a : M128d) : FP := a.e0

/-! ## The scalar backend vector3_reg -/

/-- The scalar backend: three components and the comma-initializer flag
been_inserted (a uint8_t that only ever takes values 0..3). -/
structure vector3_reg where
  x : FP
  y : FP
  z : FP
  been_inserted : Nat
deriving DecidableEq

/-- The default constructor: components zero, flag inert. -/
def vector3_reg.mkDefault : vector3_reg := ⟨FP.num 0, FP.num 0, FP.num 0, 0⟩

/-- The three-argument constructor. -/
def vector3_reg.mk3 (a b c : FP) : vector3_reg := ⟨a, b, c, 0⟩

/-- The copy constructor: copies x, y, z and sets been_inserted to 0. -/
def vector3_reg.copy (o : vector3_reg) : vector3_reg := ⟨o.x, o.y, o.z, 0⟩

/-- The elementwise division operator of vector3_reg. -/
def vector3_reg.div (v o : vector3_reg) : vector3_reg :=
  vector3_reg.mk3 (fpDiv v.x o.x) (fpDiv v.y o.y) (fpDiv v.z o.z)

/-- The scalar division operator of vector3_reg. -/
def vector3_reg.divs (v : vector3_reg) (value : FP) : vector3_reg :=
  vector3_reg.mk3 (fpDiv v.x value) (fpDiv v.y value) (fpDiv v.z value)

/-- The cross product of vector3_reg, exactly the source formula. -/
def vector3_reg.cross (v o : vector3_reg) : vector3_reg :=
  vector3_reg.mk3
    (fpSub (fpMul v.y o.z) (fpMul v.z o.y))
    (fpSub (fpMul v.z o.x) (fpMul v.x o.z))
    (fpSub (fpMul v.x o.y) (fpMul v.y o.x))

/-- The dot product of vector3_reg. -/
def vector3_reg.dot (v o : vector3_reg) : FP :=
  fpAdd (fpAdd (fpMul v.x o.x) (fpMul v.y o.y)) (fpMul v.z o.z)

/-- The length of vector3_reg for an abstract square root s. -/
def vector3_reg.length (s : FP → FP) (v : vector3_reg) : FP :=
  s (fpAdd (fpAdd (fpMul v.x v.x) (fpMul v.y v.y)) (fpMul v.z v.z))

/-- The reciprocal length of vector3_reg: exactly 1 / length(). -/
def vector3_reg.rlength (s : FP → FP) (v : vector3_reg) : FP :=
  fpDiv (FP.num 1) (v.length s)

/-- normalize() of vector3_reg: build a local copy through the
three-argument constructor and divide each component by length(). -/
def vector3_reg.normalize (s : FP → FP) (v : vector3_reg) : vector3_reg :=
  let abs := v.length s
  let v0 := vector3_reg.mk3 v.x v.y v.z
  { v0 with x := fpDiv v0.x abs, y := fpDiv v0.y abs, z := fpDiv v0.z abs }

/-- The arm operator (operator<<) of the chained-insertion initializer:
sets x and arms the flag. -/
def vector3_reg.insert (v : vector3_reg) (value : FP) : vector3_reg :=
  { v with x := value, been_inserted := 1 }

/-- The continuation operator (operator,) of the chained-insertion
initializer.  The Bool records whether a diagnostic was written to the
error channel. -/
def vector3_reg.comma (v : vector3_reg) (value : FP) : vector3_reg × Bool :=
  if v.been_inserted = 0 then (v, true)
  else if v.been_inserted = 1 then
    ({ v with y := value, been_inserted := v.been_inserted + 1 }, false)
  else if v.been_inserted = 2 then
    ({ v with z := value, been_inserted := v.been_inserted + 1 }, false)
  else (v, true)

/-- Stream-parse (operator>>) of vector3_reg: three successfully read
tokens are assigned to x, y, z in order; nothing else changes. -/
def vector3_reg.readStream (v : vector3_reg) (a b c : FP) : vector3_reg :=
  { v with x := a, y := b, z := c }

/-! ## The single-precision SIMD backend vector3f_simd -/

/-- The single-precision SIMD backend: a four-lane register (lanes 0..2
are x, y, z; lane 3 is padding) and the comma-initializer flag. -/
structure vector3f_simd where
  mmvalue : M128
  been_inserted : Nat
deriving DecidableEq

/-- The default constructor: zeroed register, flag inert. -/
def vector3f_simd.mkDefault : vector3f_simd := ⟨mm_setzero_ps, 0⟩

/-- The three-argument constructor: _mm_set_ps(0, z, y, x), flag inert. -/
def vector3f_simd.mk3 (x y z : FP) : vector3f_simd :=
  ⟨mm_set_ps (FP.num 0) z y x, 0⟩

/-- The raw-register constructor: adopts the register, flag inert. -/
def vector3f_simd.fromReg (other : M128) : vector3f_simd := ⟨other, 0⟩

/-- The copy constructor of vector3f_simd is the implicitly generated
one: it copies the register and been_inserted memberwise. -/
def vector3f_simd.copyImplicit (v : vector3f_simd) : vector3f_simd :=
  ⟨v.mmvalue, v.been_inserted⟩

/-- The elementwise division operator: a plain _mm_div_ps with no
treatment of the padding lane. -/
def vector3f_simd.div (v o : vector3f_simd) : vector3f_simd :=
  vector3f_simd.fromReg (mm_div_ps v.mmvalue o.mmvalue)

/-- The scalar division operator: divide by _mm_set1_ps(value). -/
def vector3f_simd.divs (v : vector3f_simd) (value : FP) : vector3f_simd :=
  vector3f_simd.fromReg (mm_div_ps v.mmvalue (mm_set1_ps value))

/-- The cross product of vector3f_simd via the two shuffles
_MM_SHUFFLE(3,0,2,1) and _MM_SHUFFLE(3,1,0,2). -/
def vector3f_simd.cross (v o : vector3f_simd) : vector3f_simd :=
  vector3f_simd.fromReg (mm_sub_ps
    (mm_mul_ps (mm_shuffle_ps v.mmvalue v.mmvalue 3 0 2 1)
      (mm_shuffle_ps o.mmvalue o.mmvalue 3 1 0 2))
    (mm_mul_ps (mm_shuffle_ps v.mmvalue v.mmvalue 3 1 0 2)
      (mm_shuffle_ps o.mmvalue o.mmvalue 3 0 2 1)))

/-- The dot product of vector3f_simd: _mm_dp_ps with immediate 0x71. -/
def vector3f_simd.dot (v o : vector3f_simd) : FP :=
  mm_cvtss_f32 (mm_dp_ps v.mmvalue o.mmvalue 0x71)

/-- The length of vector3f_simd for an abstract square root s. -/
def vector3f_simd.length (s : FP → FP) (v : vector3f_simd) : FP :=
  mm_cvtss_f32 (mm_sqrt_ss s (mm_dp_ps v.mmvalue v.mmvalue 0x71))

/-- The reciprocal length of vector3f_simd for an abstract reciprocal
square root rs (the hardware approximation). -/
def vector3f_simd.rlength (rs : FP → FP) (v : vector3f_simd) : FP :=
  mm_cvtss_f32 (mm_rsqrt_ss rs (mm_dp_ps v.mmvalue v.mmvalue 0x71))

/-- normalize() of vector3f_simd: multiply the register by
_mm_rsqrt_ps(_mm_dp_ps(v, v, 0x7F)). -/
def vector3f_simd.normalize (rs : FP → FP) (v : vector3f_simd) : vector3f_simd :=
  vector3f_simd.fromReg
    (mm_mul_ps v.mmvalue (mm_rsqrt_ps rs (mm_dp_ps v.mmvalue v.mmvalue 0x7F)))

/-- The arm operator (operator<<): writes lane 0 (x) through the union
and arms the flag; the other lanes, padding included, are untouched. -/
def vector3f_simd.insert (v : vector3f_simd) (value : FP) : vector3f_simd :=
  { v with mmvalue := { v.mmvalue with e0 := value }, been_inserted := 1 }

/-- The continuation operator (operator,) of vector3f_simd.  The Bool
records whether a diagnostic was written to the error channel. -/
def vector3f_simd.comma (v : vector3f_simd) (value : FP) : vector3f_simd × Bool :=
  if v.been_inserted = 0 then (v, true)
  else if v.been_inserted = 1 then
    ({ v with
        mmvalue := { v.mmvalue with e1 := value },
        been_inserted := v.been_inserted + 1 }, false)
  else if v.been_inserted = 2 then
    ({ v with
        mmvalue := { v.mmvalue with e2 := value },
        been_inserted := v.been_inserted + 1 }, false)
  else (v, true)

/-- Stream-parse (operator>>) of vector3f_simd: writes lanes 0, 1, 2
through the union; the padding lane and the flag are untouched. -/
def vector3f_simd.readStream (v : vector3f_simd) (a b c : FP) : vector3f_simd :=
  { v with mmvalue := { v.mmvalue with e0 := a, e1 := b, e2 := c } }

/-! ## The double-precision SIMD backend vector3d_simd -/

/-- The double-precision SIMD backend: a four-lane 256-bit register
(lanes 0..2 are x, y, z; lane 3 is padding) and the comma-initializer
flag. -/
structure vector3d_simd where
  mmvalue : M256d
  been_inserted : Nat
deriving DecidableEq

/-- The default constructor: zeroed register, flag inert. -/
def vector3d_simd.mkDefault : vector3d_simd := ⟨mm256_setzero_pd, 0⟩

/-- The three-argument constructor: _mm256_set_pd(0, z, y, x), flag inert. -/
def vector3d_simd.mk3 (x y z : FP) : vector3d_simd :=
  ⟨mm256_set_pd (FP.num 0) z y x, 0⟩

/-- The raw-register constructor: adopts the register, flag inert. -/
def vector3d_simd.fromReg (other : M256d) : vector3d_simd := ⟨other, 0⟩

/-- The copy constructor of vector3d_simd is the implicitly generated
one: it copies the register and been_inserted memberwise. -/
def vector3d_simd.copyImplicit (v : vector3d_simd) : vector3d_simd :=
  ⟨v.mmvalue, v.been_inserted⟩

/-- The elementwise division operator: the divisor register is copied,
its padding lane overwritten with 1.0, then _mm256_div_pd. -/
def vector3d_simd.div (v o : vector3d_simd) : vector3d_simd :=
  let r := { o.mmvalue with e3 := FP.num 1 }
  vector3d_simd.fromReg (mm256_div_pd v.mmvalue r)

/-- The scalar division operator: divide by
_mm256_set_pd(1.0, value, value, value). -/
def vector3d_simd.divs (v : vector3d_simd) (value : FP) : vector3d_simd :=
  vector3d_simd.fromReg
    (mm256_div_pd v.mmvalue (mm256_set_pd (FP.num 1) value value value))

/-- The cross product of vector3d_simd via the two permutations
_MM_SHUFFLE(3,0,2,1) and _MM_SHUFFLE(3,1,0,2). -/
def vector3d_simd.cross (v o : vector3d_simd) : vector3d_simd :=
  vector3d_simd.fromReg (mm256_sub_pd
    (mm256_mul_pd (mm256_permute4x64_pd v.mmvalue 3 0 2 1)
      (mm256_permute4x64_pd o.mmvalue 3 1 0 2))
    (mm256_mul_pd (mm256_permute4x64_pd v.mmvalue 3 1 0 2)
      (mm256_permute4x64_pd o.mmvalue 3 0 2 1)))

/-- The dot product of vector3d_simd, exactly as written in the source:
it squares the receiver register (the argument is never used), then
horizontal-adds and sums the two 128-bit halves. -/
def vector3d_simd.dot (v o : vector3d_simd) : FP :=
  let r1 := mm256_mul_pd v.mmvalue v.mmvalue
  let r2 := mm256_hadd_pd r1 r1
  mm_cvtsd_f64 (mm_add_pd (mm256_extractf128_pd r2 1) (mm256_castpd256_pd128 r2))

/-- The length of vector3d_simd for an abstract square root s: the same
horizontal sum as dot, followed by _mm_sqrt_pd. -/
def vector3d_simd.length (s : FP → FP) (v : vector3d_simd) : FP :=
  let r1 := mm256_mul_pd v.mmvalue v.mmvalue
  let r2 := mm256_hadd_pd r1 r1
  mm_cvtsd_f64 (mm_sqrt_pd s
    (mm_add_pd (mm256_extractf128_pd r2 1) (mm256_castpd256_pd128 r2)))

/-- The reciprocal length of vector3d_simd: exactly 1 / length(). -/
def vector3d_simd.rlength (s : FP → FP) (v : vector3d_simd) : FP :=
  fpDiv (FP.num 1) (v.length s)

/-- normalize() of vector3d_simd: multiply the register by
_mm256_set1_pd(rlength()). -/
def vector3d_simd.normalize (s : FP → FP) (v : vector3d_simd) : vector3d_simd :=
  vector3d_simd.fromReg (mm256_mul_pd v.mmvalue (mm256_set1_pd (v.rlength s)))

/-- The arm operator (operator<<): writes lane 0 (x) through the union
and arms the flag; the other lanes, padding included, are untouched. -/
def vector3d_simd.insert (v : vector3d_simd) (value : FP) : vector3d_simd :=
  { v with mmvalue := { v.mmvalue with e0 := value }, been_inserted := 1 }

/-- The continuation operator (operator,) of vector3d_simd.  The Bool
records whether a diagnostic was written to the error channel. -/
def vector3d_simd.comma (v : vector3d_simd) (value : FP) : vector3d_simd × Bool :=
  if v.been_inserted = 0 then (v, true)
  else if v.been_inserted = 1 then
    ({ v with
        mmvalue := { v.mmvalue with e1 := value },
        been_inserted := v.been_inserted + 1 }, false)
  else if v.been_inserted = 2 then
    ({ v with
        mmvalue := { v.mmvalue with e2 := value },
        been_inserted := v.been_inserted + 1 }, false)
  else (v, true)

/-- Stream-parse (operator>>) of vector3d_simd: writes lanes 0, 1, 2
through the union; the padding lane and the flag are untouched. -/
def vector3d_simd.readStream (v : vector3d_simd) (a b c : FP) : vector3d_simd :=
  { v with mmvalue := { v.mmvalue with e0 := a, e1 := b, e2 := c } }

/-! ## Helper lemmas -/

/-- In the exact model (no rounding, no signed zero), dividing by a value
coincides with multiplying by its reciprocal, including all special-value
cases. -/
theorem fpDiv_eq_mul_rcp (x L : FP) : fpDiv x L = fpMul x (fpDiv (FP.num 1) L) := by
  cases x with
  | nan => cases L <;> simp [fpDiv, fpMul]
  | num a =>
      cases L with
      | nan => rfl
      | pinf => simp [fpDiv, fpMul, mul_zero]
      | ninf => simp [fpDiv, fpMul, mul_zero]
      | num l =>
          by_cases hl : l = 0
          · subst hl
            simp [fpDiv, fpMul]
          · simp [fpDiv, fpMul, hl, div_eq_mul_inv]
  | pinf =>
      cases L with
      | nan => rfl
      | pinf => simp [fpDiv, fpMul]
      | ninf => simp [fpDiv, fpMul]
      | num b =>
          by_cases hb : b = 0
          · subst hb; simp [fpDiv, fpMul]
          · rcases lt_or_gt_of_ne hb with hneg | hpos
            · simp [fpDiv, fpMul, hb, hneg.not_lt, not_le.mpr hneg,
                one_div_ne_zero hb, one_div_pos, one_div_neg]
            · simp [fpDiv, fpMul, hb, hpos, hpos.le, one_div_ne_zero hb,
                one_div_pos]
  | ninf =>
      cases L with
      | nan => rfl
      | pinf => simp [fpDiv, fpMul]
      | ninf => simp [fpDiv, fpMul]
      | num b =>
          by_cases hb : b = 0
          · subst hb; simp [fpDiv, fpMul]
          · rcases lt_or_gt_of_ne hb with hneg | hpos
            · simp [fpDiv, fpMul, hb, hneg.not_lt, not_le.mpr hneg,
                one_div_ne_zero hb, one_div_pos, one_div_neg]
            · simp [fpDiv, fpMul, hb, hpos, hpos.le, one_div_ne_zero hb,
                one_div_pos]

attribute [simp] fpNeg fpAdd fpSub fpMul fpDiv M128.get M256d.get
attribute [simp] mm_setzero_ps mm_set_ps mm_set1_ps mm_add_ps mm_sub_ps mm_mul_ps
attribute [simp] mm_div_ps mm_shuffle_ps mm_cvtss_f32 mm_sqrt_ss
attribute [simp] mm_rsqrt_ss mm_rsqrt_ps mm256_setzero_pd mm256_set_pd mm256_set1_pd
attribute [simp] mm256_add_pd mm256_sub_pd mm256_mul_pd mm256_div_pd
attribute [simp] mm256_permute4x64_pd mm256_hadd_pd mm256_extractf128_pd
attribute [simp] mm256_castpd256_pd128 mm_add_pd mm_sqrt_pd mm_cvtsd_f64
attribute [simp] vector3_reg.mkDefault vector3_reg.mk3 vector3_reg.copy
attribute [simp] vector3_reg.div vector3_reg.divs vector3_reg.cross vector3_reg.dot
attribute [simp] vector3_reg.length vector3_reg.rlength vector3_reg.normalize
attribute [simp] vector3_reg.insert vector3_reg.comma vector3_reg.readStream
attribute [simp] vector3f_simd.mkDefault vector3f_simd.mk3 vector3f_simd.fromReg
attribute [simp] vector3f_simd.copyImplicit vector3f_simd.div vector3f_simd.divs
attribute [simp] vector3f_simd.cross vector3f_simd.dot vector3f_simd.length
attribute [simp] vector3f_simd.rlength vector3f_simd.normalize vector3f_simd.insert
attribute [simp] vector3f_simd.comma vector3f_simd.readStream
attribute [simp] vector3d_simd.mkDefault vector3d_simd.mk3 vector3d_simd.fromReg
attribute [simp] vector3d_simd.copyImplicit vector3d_simd.div vector3d_simd.divs
attribute [simp] vector3d_simd.cross vector3d_simd.dot vector3d_simd.length
attribute [simp] vector3d_simd.rlength vector3d_simd.normalize vector3d_simd.insert
attribute [simp] vector3d_simd.comma vector3d_simd.readStream

/-- Evaluation of _mm_dp_ps at the immediate 0x71 used by the narrow-lane
dot, length and rlength: multiply lanes 0..2, sum, place in lane 0. -/
theorem mm_dp_ps_imm71 (a b : M128) :
    mm_dp_ps a b 0x71 =
      ⟨fpAdd (fpAdd (fpMul a.e0 b.e0) (fpMul a.e1 b.e1))
         (fpAdd (fpMul a.e2 b.e2) (FP.num 0)),
       FP.num 0, FP.num 0, FP.num 0⟩ := rfl

/-- Evaluation of _mm_dp_ps at the immediate 0x7F used by the narrow-lane
normalize: multiply lanes 0..2, sum, broadcast to all lanes. -/
theorem mm_dp_ps_imm7F (a b : M128) :
    mm_dp_ps a b 0x7F =
      ⟨fpAdd (fpAdd (fpMul a.e0 b.e0) (fpMul a.e1 b.e1))
         (fpAdd (fpMul a.e2 b.e2) (FP.num 0)),
       fpAdd (fpAdd (fpMul a.e0 b.e0) (fpMul a.e1 b.e1))
         (fpAdd (fpMul a.e2 b.e2) (FP.num 0)),
       fpAdd (fpAdd (fpMul a.e0 b.e0) (fpMul a.e1 b.e1))
         (fpAdd (fpMul a.e2 b.e2) (FP.num 0)),
       fpAdd (fpAdd (fpMul a.e0 b.e0) (fpMul a.e1 b.e1))
         (fpAdd (fpMul a.e2 b.e2) (FP.num 0))⟩ := rfl

attribute [simp] mm_dp_ps_imm71 mm_dp_ps_imm7F

/-! ## Claims -/

/-- Claim C1.  The claim states that in every backend v.dot(o) returns
x·o.x + y·o.y + z·o.z.  The wide-lane double-precision backend contradicts
it: its dot squares the receiver register and ignores the argument, so at
v = (1,2,3), o = (4,5,6) the code returns 1·1 + 2·2 + 3·3 = 14 where the
claim requires 1·4 + 2·5 + 3·6 = 32.  This is a slip in the code (its own
doc comment says dot product of two vectors, and the other two backends
use the argument). -/
theorem claim_C1_wide_dot_failing :
    vector3d_simd.dot (vector3d_simd.mk3 (FP.num 1) (FP.num 2) (FP.num 3))
        (vector3d_simd.mk3 (FP.num 4) (FP.num 5) (FP.num 6)) = FP.num 14 ∧
      vector3f_simd.dot (vector3f_simd.mk3 (FP.num 1) (FP.num 2) (FP.num 3))
        (vector3f_simd.mk3 (FP.num 4) (FP.num 5) (FP.num 6)) = FP.num 32 ∧
      vector3_reg.dot (vector3_reg.mk3 (FP.num 1) (FP.num 2) (FP.num 3))
        (vector3_reg.mk3 (FP.num 4) (FP.num 5) (FP.num 6)) = FP.num 32 ∧
      (FP.num 14 : FP) ≠ FP.num 32 := by
  refine ⟨by norm_num, by norm_num, by norm_num, by norm_num⟩

/-- Claim C2, counterexample.  The claim states that elementwise division
neutralizes the divisor padding lane in both SIMD backends.  The
narrow-lane backend does not: dividing two normally constructed vectors
(padding lanes zero) leaves 0/0 = NaN in the result padding lane, which a
neutralized (non-zero) divisor lane could never produce. -/
theorem claim_C2_counterexample :
    (vector3f_simd.div (vector3f_simd.mk3 (FP.num 1) (FP.num 1) (FP.num 1))
        (vector3f_simd.mk3 (FP.num 1) (FP.num 1) (FP.num 1))).mmvalue.e3 = FP.nan := by
  norm_num

/-- Claim C2, amended.  The wide-lane backend neutralizes the divisor
padding lane to 1 before both vector/vector and vector/scalar division;
the narrow-lane backend performs plain lanewise division (vector/vector
divides padding by padding, vector/scalar broadcasts the scalar into the
padding divisor), so NaN/Inf can arise in the result padding lane, but the
x, y, z lanes of every division result depend only on the corresponding
operand lanes. -/
theorem claim_C2_padding_division :
    ∀ (a b : vector3d_simd) (s : FP) (c d : vector3f_simd),
      (vector3d_simd.div a b).mmvalue.e3 = fpDiv a.mmvalue.e3 (FP.num 1) ∧
      (vector3d_simd.divs a s).mmvalue.e3 = fpDiv a.mmvalue.e3 (FP.num 1) ∧
      (vector3f_simd.div c d).mmvalue.e3 = fpDiv c.mmvalue.e3 d.mmvalue.e3 ∧
      (vector3f_simd.divs c s).mmvalue.e3 = fpDiv c.mmvalue.e3 s ∧
      (vector3f_simd.div c d).mmvalue.e0 = fpDiv c.mmvalue.e0 d.mmvalue.e0 ∧
      (vector3f_simd.div c d).mmvalue.e1 = fpDiv c.mmvalue.e1 d.mmvalue.e1 ∧
      (vector3f_simd.div c d).mmvalue.e2 = fpDiv c.mmvalue.e2 d.mmvalue.e2 := by
  intro a b s c d
  exact ⟨rfl, rfl, rfl, rfl, rfl, rfl, rfl⟩

/-- Claim C3.  For both SIMD backends, if the divisor padding lane is
zero, elementwise division still returns exactly a.x/b.x, a.y/b.y,
a.z/b.z in the x, y, z lanes: the zero padding divisor lane cannot
contaminate them. -/
theorem claim_C3_padding_isolation :
    ∀ (a b : vector3f_simd) (c d : vector3d_simd),
      b.mmvalue.e3 = FP.num 0 → d.mmvalue.e3 = FP.num 0 →
      ((vector3f_simd.div a b).mmvalue.e0 = fpDiv a.mmvalue.e0 b.mmvalue.e0 ∧
       (vector3f_simd.div a b).mmvalue.e1 = fpDiv a.mmvalue.e1 b.mmvalue.e1 ∧
       (vector3f_simd.div a b).mmvalue.e2 = fpDiv a.mmvalue.e2 b.mmvalue.e2) ∧
      ((vector3d_simd.div c d).mmvalue.e0 = fpDiv c.mmvalue.e0 d.mmvalue.e0 ∧
       (vector3d_simd.div c d).mmvalue.e1 = fpDiv c.mmvalue.e1 d.mmvalue.e1 ∧
       (vector3d_simd.div c d).mmvalue.e2 = fpDiv c.mmvalue.e2 d.mmvalue.e2) := by
  intro a b c d hb hd
  exact ⟨⟨rfl, rfl, rfl⟩, ⟨rfl, rfl, rfl⟩⟩

/-- Claim C3, witness at concrete vectors whose divisor padding lanes are
zero. -/
theorem claim_C3_witness :
    ((vector3f_simd.div (vector3f_simd.fromReg ⟨FP.num 4, FP.num 6, FP.num 8, FP.num 5⟩)
        (vector3f_simd.fromReg ⟨FP.num 2, FP.num 3, FP.num 4, FP.num 0⟩)).mmvalue.e0 =
      fpDiv (FP.num 4) (FP.num 2)) ∧
    ((vector3d_simd.div (vector3d_simd.fromReg ⟨FP.num 9, FP.num 6, FP.num 8, FP.num 7⟩)
        (vector3d_simd.fromReg ⟨FP.num 3, FP.num 2, FP.num 4, FP.num 0⟩)).mmvalue.e0 =
      fpDiv (FP.num 9) (FP.num 3)) := by
  have h := claim_C3_padding_isolation
      (vector3f_simd.fromReg ⟨FP.num 4, FP.num 6, FP.num 8, FP.num 5⟩)
      (vector3f_simd.fromReg ⟨FP.num 2, FP.num 3, FP.num 4, FP.num 0⟩)
      (vector3d_simd.fromReg ⟨FP.num 9, FP.num 6, FP.num 8, FP.num 7⟩)
      (vector3d_simd.fromReg ⟨FP.num 3, FP.num 2, FP.num 4, FP.num 0⟩)
      rfl rfl
  exact ⟨h.1.1, h.2.1⟩

/-- Claim C4, counterexample.  The claim states that the wide-lane dot and
length are unchanged whatever value sits in the padding lane.  Two vectors
with identical x, y, z but padding lanes 1 and 0 give different dot
results (1 versus 0): the horizontal sum includes the padding pair instead
of discarding it. -/
theorem claim_C4_counterexample :
    vector3d_simd.dot (vector3d_simd.fromReg ⟨FP.num 0, FP.num 0, FP.num 0, FP.num 1⟩)
        (vector3d_simd.mk3 (FP.num 0) (FP.num 0) (FP.num 0)) ≠
      vector3d_simd.dot (vector3d_simd.fromReg ⟨FP.num 0, FP.num 0, FP.num 0, FP.num 0⟩)
        (vector3d_simd.mk3 (FP.num 0) (FP.num 0) (FP.num 0)) := by
  norm_num

/-- Claim C4, amended.  The wide-lane horizontal sum of dot and length
includes all four lanes (and dot squares the receiver, ignoring its
argument): for finite lanes the returned value is x² + y² + z² + w², which
agrees with the x, y, z-only sum exactly when the padding lane w is zero,
as every normally constructed vector guarantees. -/
theorem claim_C4_wide_horizontal_sum :
    ∀ (qx qy qz qw : ℚ) (o : vector3d_simd) (s : FP → FP),
      vector3d_simd.dot
          (vector3d_simd.fromReg ⟨FP.num qx, FP.num qy, FP.num qz, FP.num qw⟩) o =
        FP.num (qx ^ 2 + qy ^ 2 + qz ^ 2 + qw ^ 2) ∧
      vector3d_simd.length s
          (vector3d_simd.fromReg ⟨FP.num qx, FP.num qy, FP.num qz, FP.num qw⟩) =
        s (FP.num (qx ^ 2 + qy ^ 2 + qz ^ 2 + qw ^ 2)) := by
  intro qx qy qz qw o s
  constructor
  · show FP.num ((qw * qw + qz * qz) + (qy * qy + qx * qx)) = _
    rw [FP.num.injEq]
    ring
  · show s (FP.num ((qw * qw + qz * qz) + (qy * qy + qx * qx))) = _
    congr 1
    rw [FP.num.injEq]
    ring

/-- Claim C5.  In every backend, misuse of the chained-insertion
initializer is non-fatal and atomic: a continuation on a vector whose flag
is inert (0), or a third continuation after two successful ones (flag 3),
writes a diagnostic (the Bool) and returns the instance completely
unchanged, components and flag included. -/
theorem claim_C5_comma_misuse :
    ∀ (vr : vector3_reg) (vf : vector3f_simd) (vd : vector3d_simd) (c : FP),
      (vr.been_inserted = 0 ∨ vr.been_inserted = 3 →
        vector3_reg.comma vr c = (vr, true)) ∧
      (vf.been_inserted = 0 ∨ vf.been_inserted = 3 →
        vector3f_simd.comma vf c = (vf, true)) ∧
      (vd.been_inserted = 0 ∨ vd.been_inserted = 3 →
        vector3d_simd.comma vd c = (vd, true)) := by
  intro vr vf vd c
  refine ⟨fun h => ?_, fun h => ?_, fun h => ?_⟩ <;>
    rcases h with h | h <;> simp [h]

/-- Claim C5, witness: a freshly constructed vector (flag inert) rejects a
bare continuation unchanged, and vectors that finished the chain (flag 3)
reject a third continuation unchanged. -/
theorem claim_C5_witness :
    vector3_reg.comma (vector3_reg.mk3 (FP.num 1) (FP.num 2) (FP.num 3)) (FP.num 9) =
      (vector3_reg.mk3 (FP.num 1) (FP.num 2) (FP.num 3), true) ∧
    vector3f_simd.comma ⟨⟨FP.num 1, FP.num 2, FP.num 3, FP.num 0⟩, 3⟩ (FP.num 9) =
      (⟨⟨FP.num 1, FP.num 2, FP.num 3, FP.num 0⟩, 3⟩, true) ∧
    vector3d_simd.comma ⟨⟨FP.num 1, FP.num 2, FP.num 3, FP.num 0⟩, 3⟩ (FP.num 9) =
      (⟨⟨FP.num 1, FP.num 2, FP.num 3, FP.num 0⟩, 3⟩, true) := by
  have h := claim_C5_comma_misuse (vector3_reg.mk3 (FP.num 1) (FP.num 2) (FP.num 3))
      ⟨⟨FP.num 1, FP.num 2, FP.num 3, FP.num 0⟩, 3⟩
      ⟨⟨FP.num 1, FP.num 2, FP.num 3, FP.num 0⟩, 3⟩ (FP.num 9)
  exact ⟨h.1 (Or.inl rfl), h.2.1 (Or.inr rfl), h.2.2 (Or.inr rfl)⟩

/-- Claim C6.  In every backend, the chained insertion v << a, b, c (arm
sets x and arms the flag, the two continuations consume y then z) leaves
the vector with exactly the components of the three-argument constructor
Vector(a, b, c), whatever the prior state of v. -/
theorem claim_C6_chain :
    ∀ (vr : vector3_reg) (vf : vector3f_simd) (vd : vector3d_simd) (a b c : FP),
      ((((vr.insert a).comma b).1.comma c).1.x = (vector3_reg.mk3 a b c).x ∧
       (((vr.insert a).comma b).1.comma c).1.y = (vector3_reg.mk3 a b c).y ∧
       (((vr.insert a).comma b).1.comma c).1.z = (vector3_reg.mk3 a b c).z) ∧
      ((((vf.insert a).comma b).1.comma c).1.mmvalue.e0 = (vector3f_simd.mk3 a b c).mmvalue.e0 ∧
       (((vf.insert a).comma b).1.comma c).1.mmvalue.e1 = (vector3f_simd.mk3 a b c).mmvalue.e1 ∧
       (((vf.insert a).comma b).1.comma c).1.mmvalue.e2 = (vector3f_simd.mk3 a b c).mmvalue.e2) ∧
      ((((vd.insert a).comma b).1.comma c).1.mmvalue.e0 = (vector3d_simd.mk3 a b c).mmvalue.e0 ∧
       (((vd.insert a).comma b).1.comma c).1.mmvalue.e1 = (vector3d_simd.mk3 a b c).mmvalue.e1 ∧
       (((vd.insert a).comma b).1.comma c).1.mmvalue.e2 = (vector3d_simd.mk3 a b c).mmvalue.e2) := by
  intro vr vf vd a b c
  exact ⟨⟨rfl, rfl, rfl⟩, ⟨rfl, rfl, rfl⟩, ⟨rfl, rfl, rfl⟩⟩

/-- Claim C7.  Every backend computes the standard 3D cross product
(y·o.z − z·o.y, z·o.x − x·o.z, x·o.y − y·o.x) — the SIMD backends through
their two lane permutations — and in particular
Vector(1,0,0).cross(Vector(0,1,0)) has components (0,0,1) in every
backend. -/
theorem claim_C7_cross :
    ∀ (vr o1 : vector3_reg) (vf o2 : vector3f_simd) (vd o3 : vector3d_simd),
      (vector3_reg.cross vr o1 =
        vector3_reg.mk3 (fpSub (fpMul vr.y o1.z) (fpMul vr.z o1.y))
          (fpSub (fpMul vr.z o1.x) (fpMul vr.x o1.z))
          (fpSub (fpMul vr.x o1.y) (fpMul vr.y o1.x))) ∧
      ((vector3f_simd.cross vf o2).mmvalue.e0 =
          fpSub (fpMul vf.mmvalue.e1 o2.mmvalue.e2) (fpMul vf.mmvalue.e2 o2.mmvalue.e1) ∧
       (vector3f_simd.cross vf o2).mmvalue.e1 =
          fpSub (fpMul vf.mmvalue.e2 o2.mmvalue.e0) (fpMul vf.mmvalue.e0 o2.mmvalue.e2) ∧
       (vector3f_simd.cross vf o2).mmvalue.e2 =
          fpSub (fpMul vf.mmvalue.e0 o2.mmvalue.e1) (fpMul vf.mmvalue.e1 o2.mmvalue.e0)) ∧
      ((vector3d_simd.cross vd o3).mmvalue.e0 =
          fpSub (fpMul vd.mmvalue.e1 o3.mmvalue.e2) (fpMul vd.mmvalue.e2 o3.mmvalue.e1) ∧
       (vector3d_simd.cross vd o3).mmvalue.e1 =
          fpSub (fpMul vd.mmvalue.e2 o3.mmvalue.e0) (fpMul vd.mmvalue.e0 o3.mmvalue.e2) ∧
       (vector3d_simd.cross vd o3).mmvalue.e2 =
          fpSub (fpMul vd.mmvalue.e0 o3.mmvalue.e1) (fpMul vd.mmvalue.e1 o3.mmvalue.e0)) ∧
      ((vector3_reg.cross (vector3_reg.mk3 (FP.num 1) (FP.num 0) (FP.num 0))
          (vector3_reg.mk3 (FP.num 0) (FP.num 1) (FP.num 0))).x = FP.num 0 ∧
       (vector3_reg.cross (vector3_reg.mk3 (FP.num 1) (FP.num 0) (FP.num 0))
          (vector3_reg.mk3 (FP.num 0) (FP.num 1) (FP.num 0))).y = FP.num 0 ∧
       (vector3_reg.cross (vector3_reg.mk3 (FP.num 1) (FP.num 0) (FP.num 0))
          (vector3_reg.mk3 (FP.num 0) (FP.num 1) (FP.num 0))).z = FP.num 1) ∧
      ((vector3f_simd.cross (vector3f_simd.mk3 (FP.num 1) (FP.num 0) (FP.num 0))
          (vector3f_simd.mk3 (FP.num 0) (FP.num 1) (FP.num 0))).mmvalue.e0 = FP.num 0 ∧
       (vector3f_simd.cross (vector3f_simd.mk3 (FP.num 1) (FP.num 0) (FP.num 0))
          (vector3f_simd.mk3 (FP.num 0) (FP.num 1) (FP.num 0))).mmvalue.e1 = FP.num 0 ∧
       (vector3f_simd.cross (vector3f_simd.mk3 (FP.num 1) (FP.num 0) (FP.num 0))
          (vector3f_simd.mk3 (FP.num 0) (FP.num 1) (FP.num 0))).mmvalue.e2 = FP.num 1) ∧
      ((vector3d_simd.cross (vector3d_simd.mk3 (FP.num 1) (FP.num 0) (FP.num 0))
          (vector3d_simd.mk3 (FP.num 0) (FP.num 1) (FP.num 0))).mmvalue.e0 = FP.num 0 ∧
       (vector3d_simd.cross (vector3d_simd.mk3 (FP.num 1) (FP.num 0) (FP.num 0))
          (vector3d_simd.mk3 (FP.num 0) (FP.num 1) (FP.num 0))).mmvalue.e1 = FP.num 0 ∧
       (vector3d_simd.cross (vector3d_simd.mk3 (FP.num 1) (FP.num 0) (FP.num 0))
          (vector3d_simd.mk3 (FP.num 0) (FP.num 1) (FP.num 0))).mmvalue.e2 = FP.num 1) := by
  intro vr o1 vf o2 vd o3
  refine ⟨rfl, ⟨rfl, rfl, rfl⟩, ⟨rfl, rfl, rfl⟩, ⟨?_, ?_, ?_⟩, ⟨?_, ?_, ?_⟩, ⟨?_, ?_, ?_⟩⟩ <;>
    norm_num

/-- Claim C8, counterexample.  The claim states that copy construction
always yields an inert flag, even from a mid-chain source.  The SIMD
backends declare no copy constructor, so the implicitly generated
memberwise copy also duplicates been_inserted: copying a source that is
mid-chain (flag 1, produced by the arm operator) yields a copy whose flag
is 1, not inert. -/
theorem claim_C8_counterexample :
    (vector3f_simd.copyImplicit
        ((vector3f_simd.mk3 (FP.num 1) (FP.num 2) (FP.num 3)).insert (FP.num 5))).been_inserted ≠ 0 := by
  norm_num

/-- Claim C8, amended.  The default, three-argument and raw-register
constructors of every backend set the flag inert, and the scalar backend
has a user-defined copy constructor that duplicates (x, y, z) with an
inert flag regardless of the source flag; the SIMD backends copy through
the implicitly generated copy constructor, duplicating the register
(components and padding) together with the flag state of the source. -/
theorem claim_C8_ctor_flags :
    ∀ (o : vector3_reg) (vf : vector3f_simd) (vd : vector3d_simd) (a b c : FP)
      (r : M128) (rd : M256d),
      vector3_reg.mkDefault.been_inserted = 0 ∧
      (vector3_reg.mk3 a b c).been_inserted = 0 ∧
      vector3_reg.copy o = ⟨o.x, o.y, o.z, 0⟩ ∧
      vector3f_simd.mkDefault.been_inserted = 0 ∧
      (vector3f_simd.mk3 a b c).been_inserted = 0 ∧
      (vector3f_simd.fromReg r).been_inserted = 0 ∧
      vector3f_simd.copyImplicit vf = vf ∧
      vector3d_simd.mkDefault.been_inserted = 0 ∧
      (vector3d_simd.mk3 a b c).been_inserted = 0 ∧
      (vector3d_simd.fromReg rd).been_inserted = 0 ∧
      vector3d_simd.copyImplicit vd = vd := by
  intro o vf vd a b c r rd
  exact ⟨rfl, rfl, rfl, rfl, rfl, rfl, rfl, rfl, rfl, rfl, rfl⟩

/-- Claim C9.  In every backend, normalize() is a pure function of the
receiver (the receiver is read, never written: the embedding of this
const method takes the receiver by value) and produces a new vector whose
x, y, z components are exactly the receiver components scaled by the
value of rlength(), for any interpretation of the square root (scalar and
wide-lane backends) and of the hardware reciprocal square root
approximation (narrow-lane backend). -/
theorem claim_C9_normalize :
    ∀ (s rs : FP → FP) (vr : vector3_reg) (vf : vector3f_simd) (vd : vector3d_simd),
      (vector3_reg.normalize s vr =
        vector3_reg.mk3 (fpMul vr.x (vector3_reg.rlength s vr))
          (fpMul vr.y (vector3_reg.rlength s vr))
          (fpMul vr.z (vector3_reg.rlength s vr))) ∧
      ((vector3f_simd.normalize rs vf).mmvalue.e0 =
          fpMul vf.mmvalue.e0 (vector3f_simd.rlength rs vf) ∧
       (vector3f_simd.normalize rs vf).mmvalue.e1 =
          fpMul vf.mmvalue.e1 (vector3f_simd.rlength rs vf) ∧
       (vector3f_simd.normalize rs vf).mmvalue.e2 =
          fpMul vf.mmvalue.e2 (vector3f_simd.rlength rs vf)) ∧
      ((vector3d_simd.normalize s vd).mmvalue.e0 =
          fpMul vd.mmvalue.e0 (vector3d_simd.rlength s vd) ∧
       (vector3d_simd.normalize s vd).mmvalue.e1 =
          fpMul vd.mmvalue.e1 (vector3d_simd.rlength s vd) ∧
       (vector3d_simd.normalize s vd).mmvalue.e2 =
          fpMul vd.mmvalue.e2 (vector3d_simd.rlength s vd)) := by
  intro s rs vr vf vd
  refine ⟨?_, ⟨rfl, rfl, rfl⟩, ⟨rfl, rfl, rfl⟩⟩
  show vector3_reg.mk3 (fpDiv vr.x (vector3_reg.length s vr))
      (fpDiv vr.y (vector3_reg.length s vr))
      (fpDiv vr.z (vector3_reg.length s vr)) = _
  rw [fpDiv_eq_mul_rcp vr.x, fpDiv_eq_mul_rcp vr.y, fpDiv_eq_mul_rcp vr.z]
  rfl

/-- Claim C10.  In every backend, stream-parse assigns exactly the three
read tokens to x, y, z and changes nothing else: the flag keeps its prior
value and, in the SIMD backends, the padding lane keeps whatever value it
held before the read.  (The model assumes the stream yields three valid
numeric tokens.) -/
theorem claim_C10_read_frame :
    ∀ (vr : vector3_reg) (vf : vector3f_simd) (vd : vector3d_simd) (a b c : FP),
      vector3_reg.readStream vr a b c = ⟨a, b, c, vr.been_inserted⟩ ∧
      vector3f_simd.readStream vf a b c =
        ⟨⟨a, b, c, vf.mmvalue.e3⟩, vf.been_inserted⟩ ∧
      vector3d_simd.readStream vd a b c =
        ⟨⟨a, b, c, vd.mmvalue.e3⟩, vd.been_inserted⟩ := by
  intro vr vf vd a b c
  exact ⟨rfl, rfl, rfl⟩
